import Mathlib

/-!
# Verification of the Windows-AI installer core

Shallow embedding of the plugin dependency discovery and isolated-environment
provisioning pipeline of the Windows-AI repository:

* `installer/env_setup.py` — `_parse_requirements`, `resolve_conflicts`, `setup_all`
* `installer/plugins.py`   — `PluginRegistry`, `_apply_plugin`, `discover_plugins`
* `installer/env.py`       — `create_env`, `_record_env_path`, `install_packages`,
  `python_executable`

Python machinery is modelled explicitly: the `packaging` library's parsed
`Requirement` objects become the structure `Req`; its `str()` renderings are
reproduced (`SpecifierSet.__str__` sorts the comma-joined specifiers);
filesystem and subprocess effects become explicit state passing, with the
subprocess exit status supplied as a function argument.
-/

namespace WindowsAI

/-- One version specifier clause of a parsed requirement: an operator such as
`"=="`, `"==="`, `">="` together with its version token.  Models one
`packaging.specifiers.Specifier`. -/
structure Spec where
  op : String
  version : String
deriving DecidableEq, Repr

/-- A parsed `packaging.requirements.Requirement`: the (case-preserved) project
name, the extras, the specifier clauses and the optional environment marker.
The Python code never builds these by hand; they come out of
`Requirement(req_str)` which parses a PEP 508 string. -/
structure Req where
  name : String
  extras : List String
  specifier : List Spec
  marker : Option String
deriving DecidableEq, Repr

/-- `str.lower()` on the underlying character list. -/
def lowerStr (s : String) : String := ⟨s.data.map Char.toLower⟩

/-- Code-point lexicographic `≤` on character lists; models Python string
comparison. -/
def charsLe : List Char → List Char → Bool
  | [], _ => true
  | _ :: _, [] => false
  | a :: as, b :: bs =>
    if a < b then true else if b < a then false else charsLe as bs

/-- Python `<=` on strings. -/
def strLe (a b : String) : Bool := charsLe a.data b.data

/-- Insertion sort on strings; models Python `sorted` on `str` (code-point
lexicographic order), used by `SpecifierSet.__str__` and extras rendering. -/
def insertStr (x : String) : List String → List String
  | [] => [x]
  | y :: ys => if strLe x y then x :: y :: ys else y :: insertStr x ys

/-- Models Python `sorted` over a list of strings. -/
def sortStr : List String → List String
  | [] => []
  | x :: xs => insertStr x (sortStr xs)

/-- Removes duplicates keeping the first occurrence; models the deduplication
a Python `set`/`frozenset` performs on construction (iteration order of the
model is first-occurrence order, a deterministic stand-in for hash order). -/
def dedupFirst : List String → List String
  | [] => []
  | x :: xs => x :: (dedupFirst xs).filter (fun y => y ≠ x)

/-- `str(Specifier)`: operator directly followed by the version token. -/
def renderSpec (s : Spec) : String := s.op ++ s.version

/-- `str(SpecifierSet)`: the distinct clauses, rendered, sorted as strings,
joined with `","` (packaging: `",".join(sorted(str(s) for s in self._specs))`,
where `_specs` is a `frozenset`). -/
def renderSpecSet (specs : List Spec) : String :=
  String.intercalate "," (sortStr (dedupFirst (specs.map renderSpec)))

/-- `str(Requirement)`: name, then `[extras]` (sorted) when non-empty, then
the specifier set, then `"; marker"` when a marker is present. -/
def Req.render (r : Req) : String :=
  r.name
    ++ (if r.extras.isEmpty then "" else
        "[" ++ String.intercalate "," (sortStr r.extras) ++ "]")
    ++ renderSpecSet r.specifier
    ++ (match r.marker with
        | none => ""
        | some m => "; " ++ m)

/-- Split a character list on `'.'`; models `"...".split(".")` as used on
version strings. -/
def splitDot : List Char → List (List Char)
  | [] => [[]]
  | c :: cs =>
    let rest := splitDot cs
    if c = '.' then [] :: rest
    else
      match rest with
      | [] => [[c]]
      | h :: t => (c :: h) :: t

/-- Decimal value of a digit run; `none` when empty or non-numeric. -/
def digitsVal (cs : List Char) : Option Nat :=
  if cs.isEmpty then none
  else
    cs.foldl
      (fun acc c =>
        match acc with
        | none => none
        | some n => if '0' ≤ c ∧ c ≤ '9' then some (n * 10 + (c.toNat - 48)) else none)
      (some 0)

/-- The release key of a version string for comparison: dot-separated numeric
components.  Models `packaging.version.Version` comparison for plain release
versions (the only shape the resolver's pinned tokens take in this code
base); non-numeric components are read as 0. -/
def versionKey (s : String) : List Nat :=
  (splitDot s.data).map (fun p => (digitsVal p).getD 0)

/-- Strict less-than on release keys, components compared left to right with
zero extension (PEP 440: `1.0 == 1.0.0`): an exhausted left key is smaller
exactly when a nonzero component remains on the right, and an exhausted right
key is never larger. -/
def verLt : List Nat → List Nat → Bool
  | [], bs => bs.any (fun b => b != 0)
  | _ :: _, [] => false
  | a :: as, b :: bs =>
    if a < b then true else if b < a then false else verLt as bs

/-- `max(pinned, key=Version)`: scans left to right keeping the current
element unless a strictly larger key appears, so the first maximum wins. -/
def maxByVersion : List String → String
  | [] => ""
  | v :: vs =>
    vs.foldl (fun acc x => if verLt (versionKey acc) (versionKey x) then x else acc) v

/-- One step of dict building in `_parse_requirements`:
`grouped.setdefault(name, []).append(req)` — append to the existing group if
the key is present, otherwise add a new key at the end (Python dicts preserve
insertion order). -/
def insertGroup : List (String × List Req) → String → Req → List (String × List Req)
  | [], n, r => [(n, [r])]
  | (k, g) :: rest, n, r =>
    if k = n then (k, g ++ [r]) :: rest else (k, g) :: insertGroup rest n r

/-- `_parse_requirements`: group (already parsed) requirements by
`req.name.lower()`, preserving first-occurrence key order. -/
def groupByName (reqs : List Req) : List (String × List Req) :=
  reqs.foldl (fun acc r => insertGroup acc (lowerStr r.name) r) []

/-- The distinct exact-pin version tokens of a requirement group:
`{spec.version for r in reqs for spec in r.specifier if spec.operator in {"==", "==="}}`. -/
def pinnedVersions (reqs : List Req) : List String :=
  dedupFirst (reqs.flatMap (fun r =>
    (r.specifier.filter (fun s => s.op = "==" ∨ s.op = "===")).map Spec.version))

/-- `resolve_conflicts` from `installer/env_setup.py`, the loop body verbatim:
groups of size one emit `str(reqs[0])`; groups with more than one distinct
pinned version are recorded in `conflicts` and, under `auto_resolve`, emit
`f"{name}=={max(pinned, key=Version)}"`; all other groups emit the name
followed by the intersection (`&`, i.e. union of clauses) of all their
specifier sets. -/
def resolve_conflicts (requirements : List Req) (auto_resolve : Bool) :
    List String × List (String × List String) :=
  (groupByName requirements).foldl
    (fun acc g =>
      let resolved := acc.1
      let conflicts := acc.2
      let name := g.1
      match g.2 with
      | [r] => (resolved ++ [r.render], conflicts)
      | reqs =>
        let pinned := pinnedVersions reqs
        if 1 < pinned.length then
          ((if auto_resolve then
              resolved ++ [name ++ "==" ++ maxByVersion pinned]
            else resolved),
           conflicts ++ [(name, reqs.map Req.render)])
        else
          (resolved ++ [name ++ renderSpecSet (reqs.flatMap Req.specifier)], conflicts))
    ([], [])

/-- The contribution of a single group to `resolve_conflicts`' outputs: the
emitted resolved strings and the (possibly empty) conflict records.
Extracted from the loop body for reasoning; `resolve_conflicts_eq` connects
the two. -/
def emitGroup (auto_resolve : Bool) (g : String × List Req) :
    List String × List (String × List String) :=
  match g.2 with
  | [r] => ([r.render], [])
  | reqs =>
    let pinned := pinnedVersions reqs
    if 1 < pinned.length then
      ((if auto_resolve then [g.1 ++ "==" ++ maxByVersion pinned] else []),
       [(g.1, reqs.map Req.render)])
    else
      ([g.1 ++ renderSpecSet (reqs.flatMap Req.specifier)], [])

end WindowsAI

namespace WindowsAI

/-- `Requirement("pkg==1")`. -/
def pkgEq1 : Req := ⟨"pkg", [], [⟨"==", "1"⟩], none⟩

/-- `Requirement("pkg==2")`. -/
def pkgEq2 : Req := ⟨"pkg", [], [⟨"==", "2"⟩], none⟩

/-- A two-output fold that appends each element's contribution decomposes
into flat maps of the contributions. -/
theorem foldl_append_pair {α β γ : Type} (f : List β × List γ → α → List β × List γ)
    (e₁ : α → List β) (e₂ : α → List γ)
    (hf : ∀ acc a, f acc a = (acc.1 ++ e₁ a, acc.2 ++ e₂ a)) :
    ∀ (l : List α) (acc : List β × List γ),
      l.foldl f acc = (acc.1 ++ l.flatMap e₁, acc.2 ++ l.flatMap e₂) := by
  intro l
  induction l with
  | nil => intro acc; simp
  | cons a l ih =>
    intro acc
    simp only [List.foldl_cons, hf acc a, ih, List.flatMap_cons, List.append_assoc]

/-- The loop of `resolve_conflicts` appends exactly `emitGroup`'s
contribution for each group. -/
theorem resolve_conflicts_eq (reqs : List Req) (auto_resolve : Bool) :
    resolve_conflicts reqs auto_resolve =
      ((groupByName reqs).flatMap (fun g => (emitGroup auto_resolve g).1),
       (groupByName reqs).flatMap (fun g => (emitGroup auto_resolve g).2)) := by
  unfold resolve_conflicts
  refine Eq.trans
    (foldl_append_pair _ (fun g => (emitGroup auto_resolve g).1)
      (fun g => (emitGroup auto_resolve g).2) ?_ (groupByName reqs) ([], []))
    (by simp)
  intro acc g
  obtain ⟨name, reqs⟩ := g
  match reqs with
  | [] => simp [emitGroup, pinnedVersions, dedupFirst]
  | [r] => simp [emitGroup]
  | r₁ :: r₂ :: rest =>
    simp only [emitGroup]
    by_cases hp : 1 < (pinnedVersions (r₁ :: r₂ :: rest)).length
    · by_cases ha : auto_resolve = true <;> simp [hp, ha]
    · simp [hp]

/-- Keys of an association list of requirement groups. -/
def keysOf (l : List (String × List Req)) : List String := l.map Prod.fst

/-- Inserting under a fresh key appends the new singleton group at the end. -/
theorem insertGroup_not_mem (acc : List (String × List Req)) (n : String) (r : Req)
    (h : n ∉ keysOf acc) : insertGroup acc n r = acc ++ [(n, [r])] := by
  induction acc with
  | nil => rfl
  | cons p rest ih =>
    obtain ⟨k, g⟩ := p
    simp only [keysOf, List.map_cons, List.mem_cons] at h
    push_neg at h
    simp only [insertGroup, if_neg (Ne.symm h.1), List.cons_append, List.cons.injEq, true_and]
    exact ih h.2

/-- When all (normalized) names are distinct and fresh with respect to the
accumulator, the grouping fold appends one singleton group per requirement. -/
theorem foldl_insertGroup_nodup :
    ∀ (rs : List Req) (acc : List (String × List Req)),
      (keysOf acc ++ rs.map (fun r => lowerStr r.name)).Nodup →
      rs.foldl (fun acc r => insertGroup acc (lowerStr r.name) r) acc =
        acc ++ rs.map (fun r => (lowerStr r.name, [r])) := by
  intro rs
  induction rs with
  | nil => intro acc _; simp
  | cons r rs ih =>
    intro acc h
    have hn : lowerStr r.name ∉ keysOf acc := by
      intro hmem
      rcases List.nodup_append.mp h with ⟨_, _, hdisj⟩
      exact hdisj hmem (by simp)
    have h' : (keysOf (acc ++ [(lowerStr r.name, [r])]) ++
        rs.map (fun r => lowerStr r.name)).Nodup := by
      simpa [keysOf, List.append_assoc] using h
    simp only [List.foldl_cons, insertGroup_not_mem acc _ r hn, ih _ h', List.map_cons,
      List.append_assoc, List.singleton_append]

/-- With pairwise-distinct normalized names, grouping yields one singleton
group per requirement, in input order. -/
theorem groupByName_nodup (reqs : List Req)
    (h : (reqs.map (fun r => lowerStr r.name)).Nodup) :
    groupByName reqs = reqs.map (fun r => (lowerStr r.name, [r])) := by
  simpa [groupByName, keysOf] using foldl_insertGroup_nodup reqs [] (by simpa [keysOf] using h)

/-- The distinct values of a string list in first-occurrence order, built the
way an insertion-ordered dict builds its keys. -/
def firstOccurrenceOrder (l : List String) : List String :=
  l.foldl (fun ks n => if n ∈ ks then ks else ks ++ [n]) []

/-- `insertGroup` leaves the keys unchanged when the key is known and appends
it at the end otherwise. -/
theorem keysOf_insertGroup (acc : List (String × List Req)) (n : String) (r : Req) :
    keysOf (insertGroup acc n r) =
      if n ∈ keysOf acc then keysOf acc else keysOf acc ++ [n] := by
  induction acc with
  | nil => simp [insertGroup, keysOf]
  | cons p rest ih =>
    obtain ⟨k, g⟩ := p
    by_cases hk : k = n
    · subst hk; simp [insertGroup, keysOf]
    · have h1 : insertGroup ((k, g) :: rest) n r = (k, g) :: insertGroup rest n r := by
        simp [insertGroup, hk]
      have h2 : keysOf ((k, g) :: insertGroup rest n r) = k :: keysOf (insertGroup rest n r) := rfl
      have h3 : keysOf ((k, g) :: rest) = k :: keysOf rest := rfl
      rw [h1, h2, h3, ih]
      by_cases hm : n ∈ keysOf rest
      · rw [if_pos hm, if_pos (List.mem_cons.mpr (Or.inr hm))]
      · have hnot : ¬ n ∈ k :: keysOf rest := by
          intro hcon
          rcases List.mem_cons.mp hcon with h | h
          · exact hk h.symm
          · exact hm h
        rw [if_neg hm, if_neg hnot]
        rfl

/-- The grouping fold builds its keys exactly as `firstOccurrenceOrder`
builds a key list. -/
theorem keysOf_foldl_insertGroup (reqs : List Req) :
    ∀ acc, keysOf (reqs.foldl (fun acc r => insertGroup acc (lowerStr r.name) r) acc) =
      (reqs.map (fun r => lowerStr r.name)).foldl
        (fun ks n => if n ∈ ks then ks else ks ++ [n]) (keysOf acc) := by
  induction reqs with
  | nil => intro acc; simp
  | cons r rs ih =>
    intro acc
    simp only [List.foldl_cons, List.map_cons]
    rw [ih, keysOf_insertGroup]

/-- The group keys of `groupByName` are the normalized names in
first-occurrence order. -/
theorem keysOf_groupByName (reqs : List Req) :
    keysOf (groupByName reqs) =
      firstOccurrenceOrder (reqs.map (fun r => lowerStr r.name)) := by
  simpa [keysOf, firstOccurrenceOrder] using keysOf_foldl_insertGroup reqs []

end WindowsAI

namespace WindowsAI

/-- C1: on `["pkg==1", "pkg==2"]` the resolver reports the conflict
`{"pkg": ["pkg==1", "pkg==2"]}` under both flag values; with `auto_resolve`
it resolves to `"pkg==2"`, and without it the resolved list has no entry for
`pkg` (it is empty). -/
theorem resolve_conflicts_pkg_pin_example :
    resolve_conflicts [pkgEq1, pkgEq2] true =
      (["pkg==2"], [("pkg", ["pkg==1", "pkg==2"])]) ∧
    resolve_conflicts [pkgEq1, pkgEq2] false =
      ([], [("pkg", ["pkg==1", "pkg==2"])]) := by decide

/-- C5: when every normalized package name occurs exactly once, the resolver
returns exactly one entry per requirement — its canonical rendering, in input
order — and the conflicts mapping is empty. -/
theorem resolve_conflicts_unique_names (reqs : List Req) (auto_resolve : Bool)
    (h : (reqs.map (fun r => lowerStr r.name)).Nodup) :
    (resolve_conflicts reqs auto_resolve).1 = reqs.map Req.render ∧
    (resolve_conflicts reqs auto_resolve).2 = [] := by
  have hsingle : ∀ (l : List Req), l.flatMap (fun a => [a.render]) = l.map Req.render := by
    intro l; induction l with
    | nil => rfl
    | cons a l ih => simp [ih]
  rw [resolve_conflicts_eq, groupByName_nodup reqs h]
  constructor
  · simp [List.flatMap_map, emitGroup, Function.comp, hsingle]
  · simp [List.flatMap_map, emitGroup, Function.comp]

/-- Witness for C5 at the concrete list `[Requirement("A==1"),
Requirement("b>=2")]`. -/
theorem resolve_conflicts_unique_names_witness :
    (([⟨"A", [], [⟨"==", "1"⟩], none⟩, ⟨"b", [], [⟨">=", "2"⟩], none⟩] :
        List Req).map (fun r => lowerStr r.name)).Nodup ∧
    (resolve_conflicts [⟨"A", [], [⟨"==", "1"⟩], none⟩,
        ⟨"b", [], [⟨">=", "2"⟩], none⟩] true).1 = ["A==1", "b>=2"] ∧
    (resolve_conflicts [⟨"A", [], [⟨"==", "1"⟩], none⟩,
        ⟨"b", [], [⟨">=", "2"⟩], none⟩] true).2 = [] := by
  refine ⟨by decide, ?_, ?_⟩
  · have := resolve_conflicts_unique_names
      [⟨"A", [], [⟨"==", "1"⟩], none⟩, ⟨"b", [], [⟨">=", "2"⟩], none⟩] true (by decide)
    rw [this.1]; decide
  · exact (resolve_conflicts_unique_names
      [⟨"A", [], [⟨"==", "1"⟩], none⟩, ⟨"b", [], [⟨">=", "2"⟩], none⟩] true (by decide)).2

/-- `Requirement("a==1")`. -/
def reqA1 : Req := ⟨"a", [], [⟨"==", "1"⟩], none⟩

/-- `Requirement("b==1")`. -/
def reqB1 : Req := ⟨"b", [], [⟨"==", "1"⟩], none⟩

/-- C6 counterexample: the inputs `["a==1", "b==1"]` and `["b==1", "a==1"]`
are the same multiset of requirement strings, yet `resolve_conflicts` returns
differently ordered resolved lists (`["a==1", "b==1"]` versus
`["b==1", "a==1"]`), so the output is not a function of the multiset alone
and is ordered by input order, not by sorted name. -/
theorem resolve_conflicts_order_counterexample :
    ([reqA1, reqB1] : List Req).Perm [reqB1, reqA1] ∧
    resolve_conflicts [reqA1, reqB1] true = (["a==1", "b==1"], []) ∧
    resolve_conflicts [reqB1, reqA1] true = (["b==1", "a==1"], []) ∧
    resolve_conflicts [reqA1, reqB1] true ≠ resolve_conflicts [reqB1, reqA1] true := by
  exact ⟨List.Perm.swap reqB1 reqA1 [], by decide, by decide, by decide⟩

/-- C6 amended: `resolve_conflicts` is a pure, deterministic function of its
requirement sequence and flag; its outputs are the per-group emissions taken
over groups whose key order is the first-occurrence order of the normalized
names in the input — not sorted order and not a function of the multiset
alone. -/
theorem resolve_conflicts_deterministic_order (reqs : List Req) (auto_resolve : Bool) :
    (resolve_conflicts reqs auto_resolve).1 =
      (groupByName reqs).flatMap (fun g => (emitGroup auto_resolve g).1) ∧
    (resolve_conflicts reqs auto_resolve).2 =
      (groupByName reqs).flatMap (fun g => (emitGroup auto_resolve g).2) ∧
    keysOf (groupByName reqs) =
      firstOccurrenceOrder (reqs.map (fun r => lowerStr r.name)) := by
  refine ⟨?_, ?_, keysOf_groupByName reqs⟩
  · rw [resolve_conflicts_eq]
  · rw [resolve_conflicts_eq]

/-- `Requirement("Pkg[gui]==1.0,>=0.5; os_name == \"nt\"")`: a conflicting
pin that also carries extras, a range clause and an environment marker. -/
def fancy1 : Req := ⟨"Pkg", ["gui"], [⟨"==", "1.0"⟩, ⟨">=", "0.5"⟩], some "os_name == \"nt\""⟩

/-- `Requirement("pkg==2.0")`. -/
def fancy2 : Req := ⟨"pkg", [], [⟨"==", "2.0"⟩], none⟩

/-- C10: for a group with more than one distinct exact pin under
`auto_resolve`, the single emitted resolved string is exactly the normalized
name, `"=="`, and the highest pinned version — extras, markers and range
clauses of the original requirements are discarded. -/
theorem auto_resolve_emits_highest_pin (reqs : List Req) (name : String) (g : List Req)
    (hmem : (name, g) ∈ groupByName reqs)
    (hlen : 2 ≤ g.length)
    (hpin : 1 < (pinnedVersions g).length) :
    emitGroup true (name, g) =
      ([name ++ "==" ++ maxByVersion (pinnedVersions g)], [(name, g.map Req.render)]) ∧
    name ++ "==" ++ maxByVersion (pinnedVersions g) ∈ (resolve_conflicts reqs true).1 := by
  have hemit : emitGroup true (name, g) =
      ([name ++ "==" ++ maxByVersion (pinnedVersions g)], [(name, g.map Req.render)]) := by
    match g, hlen with
    | r₁ :: r₂ :: rest, _ => simp [emitGroup, hpin]
  refine ⟨hemit, ?_⟩
  have h1 : (resolve_conflicts reqs true).1 =
      (groupByName reqs).flatMap (fun g => (emitGroup true g).1) := by
    rw [resolve_conflicts_eq]
  rw [h1]
  exact List.mem_flatMap.mpr ⟨(name, g), hmem, by rw [hemit]; simp⟩

/-- Witness for C10 at the group of `fancy1` and `fancy2`: the emitted string
is `"pkg==2.0"`, with `fancy1`'s extras, range clause and marker discarded. -/
theorem auto_resolve_emits_highest_pin_witness :
    ("pkg", [fancy1, fancy2]) ∈ groupByName [fancy1, fancy2] ∧
    2 ≤ ([fancy1, fancy2] : List Req).length ∧
    1 < (pinnedVersions [fancy1, fancy2]).length ∧
    "pkg==2.0" ∈ (resolve_conflicts [fancy1, fancy2] true).1 := by
  refine ⟨by decide, by decide, by decide, ?_⟩
  have h := (auto_resolve_emits_highest_pin [fancy1, fancy2] "pkg" [fancy1, fancy2]
    (by decide) (by decide) (by decide)).2
  have hmax : maxByVersion (pinnedVersions [fancy1, fancy2]) = "2.0" := by decide
  rw [hmax] at h
  have happ : ("pkg" ++ "==" ++ "2.0" : String) = "pkg==2.0" := by decide
  rw [happ] at h
  exact h

end WindowsAI

namespace WindowsAI

/-!
## Plugin registry and discovery (`installer/plugins.py`)

A plugin unit is modelled by the registry calls its contribution makes when
invoked with the registry, plus whether it raises afterwards; the unit's two
possible shapes (a callable `register` attribute, or being itself callable)
become two optional bodies.  Exceptions become `Option PyError` results and
`Except` for discovery.
-/

/-- The exceptions the embedded code can raise. -/
inductive PyError where
  /-- `TypeError(msg)` raised by `_apply_plugin` for a contract violation. -/
  | typeError (msg : String)
  /-- An arbitrary exception escaping a plugin body, tagged by the unit. -/
  | pluginRaised (plugin : String)
  /-- `subprocess.CalledProcessError` from `check_call`: the failed command
  and its nonzero exit status. -/
  | calledProcessError (cmd : List String) (returncode : Nat)
deriving DecidableEq, Repr

/-- One registry call a plugin contribution can make. -/
inductive RegAction where
  | addDep (requirement : String)
  | registerUI (name : String) (component : String)
deriving DecidableEq, Repr

/-- The observable behaviour of one plugin contribution: the registry calls
it makes, in order, and whether it then raises. -/
structure PluginBody where
  actions : List RegAction
  raises : Bool
deriving DecidableEq, Repr

/-- A discovered unit: `register` is `some body` when the unit exposes a
callable `register` attribute, and `callBody` is `some body` when the unit
itself is callable. -/
structure PluginUnit where
  register : Option PluginBody
  callBody : Option PluginBody
deriving DecidableEq, Repr

/-- `PluginRegistry` from `installer/plugins.py`: dependencies keyed by
plugin (a Python `dict` of `set`s, modelled as insertion-ordered association
lists), UI components, and the private `_current_plugin` marker. -/
structure PluginRegistry where
  dependencies : List (String × List String)
  ui_components : List (String × String)
  current_plugin : Option String
deriving DecidableEq, Repr

/-- `set.add`: insert if absent (insertion-ordered model of a Python set). -/
def addToSet (l : List String) (x : String) : List String :=
  if x ∈ l then l else l ++ [x]

/-- `dependencies.setdefault(plugin, set()).add(requirement)`. -/
def depInsert : List (String × List String) → String → String → List (String × List String)
  | [], p, x => [(p, [x])]
  | (k, s) :: rest, p, x =>
    if k = p then (k, addToSet s x) :: rest else (k, s) :: depInsert rest p x

/-- Dict assignment `d[k] = v`: overwrite in place or append. -/
def setAssoc : List (String × String) → String → String → List (String × String)
  | [], k, v => [(k, v)]
  | (k', v') :: rest, k, v =>
    if k' = k then (k', v) :: rest else (k', v') :: setAssoc rest k v

/-- Association-list lookup. -/
def lookupAssoc : List (String × List String) → String → Option (List String)
  | [], _ => none
  | (k', v) :: rest, k => if k' = k then some v else lookupAssoc rest k

/-- The dependency set recorded under a plugin key. -/
def PluginRegistry.deps (reg : PluginRegistry) (k : String) : Option (List String) :=
  lookupAssoc reg.dependencies k

/-- `PluginRegistry.add_dependency`: attribute the requirement to
`self._current_plugin or "global"` — Python `or` also treats the empty
string as falsy. -/
def PluginRegistry.add_dependency (reg : PluginRegistry) (requirement : String) :
    PluginRegistry :=
  let plugin :=
    match reg.current_plugin with
    | none => "global"
    | some s => if s = "" then "global" else s
  { reg with dependencies := depInsert reg.dependencies plugin requirement }

/-- `PluginRegistry.register_ui_component`. -/
def PluginRegistry.register_ui_component (reg : PluginRegistry)
    (name component : String) : PluginRegistry :=
  { reg with ui_components := setAssoc reg.ui_components name component }

/-- Interpretation of one registry call. -/
def applyAction (reg : PluginRegistry) : RegAction → PluginRegistry
  | .addDep r => reg.add_dependency r
  | .registerUI n c => reg.register_ui_component n c

/-- Run a contribution's registry calls in order. -/
def runActions (reg : PluginRegistry) : List RegAction → PluginRegistry
  | [] => reg
  | a :: rest => runActions (applyAction reg a) rest

/-- Invoke one plugin body: perform its calls, then optionally raise. -/
def runBody (reg : PluginRegistry) (name : String) (body : PluginBody) :
    PluginRegistry × Option PyError :=
  (runActions reg body.actions,
   if body.raises then some (.pluginRaised name) else none)

/-- `_apply_plugin`: set `_current_plugin` to the unit's name, invoke
`plugin.register(registry)` when the unit has a callable `register`
attribute, else call the unit itself when callable, else raise `TypeError`;
the `try/finally` clears `_current_plugin` on every path, including raising
ones. -/
def _apply_plugin (plugin : PluginUnit) (reg : PluginRegistry) (name : String) :
    PluginRegistry × Option PyError :=
  let reg1 := { reg with current_plugin := some name }
  let step :=
    match plugin.register with
    | some body => runBody reg1 name body
    | none =>
      match plugin.callBody with
      | some body => runBody reg1 name body
      | none =>
        (reg1, some (.typeError "Plugin must be callable or expose a register() function"))
  ({ step.1 with current_plugin := none }, step.2)

/-- Sequentially apply discovered units; a raised exception propagates at
once (there is no handler in `discover_plugins`). -/
def applyAll (reg : PluginRegistry) : List (String × PluginUnit) → Except PyError PluginRegistry
  | [] => .ok reg
  | (name, u) :: rest =>
    match _apply_plugin u reg name with
    | (reg', none) => applyAll reg' rest
    | (_, some e) => .error e

/-- `file.name.startswith("_")` on the unit's stem. -/
def underscoreFirst (s : String) : Bool :=
  match s.data with
  | '_' :: _ => true
  | _ => false

/-- `discover_plugins`: entry points of the `installer_plugins` group first,
then the non-underscore scripts of the optional search directory, all
applied to one fresh registry.  Loading is the host mechanism (`ep.load()` /
`_load_module`); its result is the unit itself. -/
def discover_plugins (eps : List (String × PluginUnit))
    (search_path : Option (List (String × PluginUnit))) : Except PyError PluginRegistry :=
  let units := eps ++
    (match search_path with
     | none => []
     | some files => files.filter (fun f => !underscoreFirst f.1))
  applyAll ⟨[], [], none⟩ units

/-- `depInsert` leaves every other key's entry unchanged. -/
theorem depInsert_other (deps : List (String × List String)) (p x k : String)
    (h : k ≠ p) : lookupAssoc (depInsert deps p x) k = lookupAssoc deps k := by
  have hpk : ¬ p = k := fun hc => h hc.symm
  induction deps with
  | nil => simp [depInsert, lookupAssoc, hpk]
  | cons e rest ih =>
    obtain ⟨k', s⟩ := e
    by_cases hk : k' = p
    · subst hk
      simp [depInsert, lookupAssoc, hpk]
    · simp only [depInsert, if_neg hk, lookupAssoc, ih]

/-- `add_dependency` neither moves the marker nor touches UI components, and
only the active plugin's entry (or `"global"`'s) can change. -/
theorem add_dependency_frame (reg : PluginRegistry) (x : String) :
    (reg.add_dependency x).current_plugin = reg.current_plugin ∧
    (reg.add_dependency x).ui_components = reg.ui_components ∧
    ∀ k, k ≠ (match reg.current_plugin with
              | none => "global"
              | some s => if s = "" then "global" else s) →
      (reg.add_dependency x).deps k = reg.deps k := by
  refine ⟨rfl, rfl, fun k h => ?_⟩
  exact depInsert_other reg.dependencies _ x k h

/-- Registry calls preserve the active-plugin marker. -/
theorem applyAction_current (reg : PluginRegistry) (a : RegAction) :
    (applyAction reg a).current_plugin = reg.current_plugin := by
  cases a with
  | addDep r => rfl
  | registerUI n c => rfl

/-- Registry calls never touch dependency entries other than the active
plugin's (when a non-empty marker is set). -/
theorem applyAction_other (reg : PluginRegistry) (a : RegAction) (name : String)
    (hcur : reg.current_plugin = some name) (hname : name ≠ "") :
    ∀ k, k ≠ name → (applyAction reg a).deps k = reg.deps k := by
  intro k hk
  cases a with
  | addDep r =>
    refine (add_dependency_frame reg r).2.2 k ?_
    rw [hcur]
    simpa [hname] using hk
  | registerUI n c => rfl

/-- A whole action sequence, run with a non-empty marker set, keeps the
marker and every other plugin's dependency entry. -/
theorem runActions_frame (acts : List RegAction) :
    ∀ (reg : PluginRegistry) (name : String),
      reg.current_plugin = some name → name ≠ "" →
      (runActions reg acts).current_plugin = some name ∧
      ∀ k, k ≠ name → (runActions reg acts).deps k = reg.deps k := by
  induction acts with
  | nil => intro reg name hcur _; exact ⟨hcur, fun _ _ => rfl⟩
  | cons a rest ih =>
    intro reg name hcur hname
    have hcur' : (applyAction reg a).current_plugin = some name := by
      rw [applyAction_current]; exact hcur
    obtain ⟨h1, h2⟩ := ih (applyAction reg a) name hcur' hname
    refine ⟨h1, fun k hk => ?_⟩
    rw [runActions, h2 k hk, applyAction_other reg a name hcur hname k hk]

/-- The element just added by `set.add` is in the set. -/
theorem mem_addToSet_self (s : List String) (x : String) : x ∈ addToSet s x := by
  unfold addToSet
  split
  · assumption
  · simp

/-- `set.add` never removes an element. -/
theorem mem_addToSet_mono (s : List String) (x y : String) (h : y ∈ s) :
    y ∈ addToSet s x := by
  unfold addToSet
  split
  · exact h
  · simp [h]

/-- `setdefault(p, set()).add(x)` read back at `p`: the old set (empty when
the key was absent) with `x` added. -/
theorem depInsert_self (deps : List (String × List String)) (p x : String) :
    lookupAssoc (depInsert deps p x) p =
      some (addToSet ((lookupAssoc deps p).getD []) x) := by
  induction deps with
  | nil => simp [depInsert, lookupAssoc, addToSet]
  | cons e rest ih =>
    obtain ⟨k, s⟩ := e
    by_cases hk : k = p
    · subst hk
      simp [depInsert, lookupAssoc]
    · simp [depInsert, lookupAssoc, hk, ih]

/-- `depInsert` never removes an element from any key's set. -/
theorem mem_lookup_depInsert (deps : List (String × List String)) (p r k x : String)
    (h : x ∈ (lookupAssoc deps k).getD []) :
    x ∈ (lookupAssoc (depInsert deps p r) k).getD [] := by
  by_cases hk : k = p
  · subst hk
    rw [depInsert_self]
    exact mem_addToSet_mono _ _ _ h
  · rw [depInsert_other deps p r k hk]
    exact h

/-- `add_dependency` never removes a recorded dependency. -/
theorem mem_deps_add_dependency (reg : PluginRegistry) (r k x : String)
    (h : x ∈ (reg.deps k).getD []) : x ∈ ((reg.add_dependency r).deps k).getD [] := by
  unfold PluginRegistry.add_dependency PluginRegistry.deps
  exact mem_lookup_depInsert reg.dependencies _ r k x h

/-- No registry call removes a recorded dependency. -/
theorem mem_deps_runActions (acts : List RegAction) :
    ∀ (reg : PluginRegistry) (k x : String),
      x ∈ (reg.deps k).getD [] →
      x ∈ ((runActions reg acts).deps k).getD [] := by
  induction acts with
  | nil => intro _ _ _ h; exact h
  | cons a rest ih =>
    intro reg k x h
    refine ih (applyAction reg a) k x ?_
    cases a with
    | addDep r => exact mem_deps_add_dependency reg r k x h
    | registerUI n c => exact h

/-- With a non-empty active marker, `add_dependency` stores the requirement
under exactly the marked identifier: the identifier's set grows by the
requirement. -/
theorem add_dependency_active (reg : PluginRegistry) (name requirement : String)
    (hcur : reg.current_plugin = some name) (hname : name ≠ "") :
    (reg.add_dependency requirement).deps name =
      some (addToSet ((reg.deps name).getD []) requirement) := by
  obtain ⟨deps, ui, cur⟩ := reg
  replace hcur : cur = some name := hcur
  subst hcur
  show lookupAssoc (depInsert deps (if name = "" then "global" else name) requirement) name =
    some (addToSet ((lookupAssoc deps name).getD []) requirement)
  rw [if_neg hname]
  exact depInsert_self deps name requirement

/-- With no active marker, `add_dependency` stores the requirement under the
reserved `"global"` identifier. -/
theorem add_dependency_global (reg : PluginRegistry) (requirement : String)
    (hcur : reg.current_plugin = none) :
    (reg.add_dependency requirement).deps "global" =
      some (addToSet ((reg.deps "global").getD []) requirement) := by
  obtain ⟨deps, ui, cur⟩ := reg
  replace hcur : cur = none := hcur
  subst hcur
  show lookupAssoc (depInsert deps "global" requirement) "global" =
    some (addToSet ((lookupAssoc deps "global").getD []) requirement)
  exact depInsert_self deps "global" requirement

/-- Every requirement an action sequence declares, run with a non-empty
marker set, ends up in the marked identifier's dependency set. -/
theorem runActions_mem_addDep (acts : List RegAction) :
    ∀ (reg : PluginRegistry) (name requirement : String),
      reg.current_plugin = some name → name ≠ "" →
      RegAction.addDep requirement ∈ acts →
      requirement ∈ ((runActions reg acts).deps name).getD [] := by
  induction acts with
  | nil => intro _ _ _ _ _ h; cases h
  | cons a rest ih =>
    intro reg name requirement hcur hname hmem
    rcases List.mem_cons.mp hmem with heq | hmem'
    · rw [runActions, ← heq]
      refine mem_deps_runActions rest (applyAction reg (.addDep requirement)) name requirement ?_
      rw [show applyAction reg (.addDep requirement) = reg.add_dependency requirement from rfl,
        add_dependency_active reg name requirement hcur hname]
      exact mem_addToSet_self _ _
    · rw [runActions]
      exact ih (applyAction reg a) name requirement
        (by rw [applyAction_current]; exact hcur) hname hmem'

end WindowsAI

namespace WindowsAI

/-- C4: invoking a unit clears the active marker on every path, raising ones
included (the `finally`); while the unit is active, every `add_dependency`
call stores its requirement under exactly the unit's identifier — the
identifier's set grows by the requirement and no other key changes — the
marker holds the unit's identifier for the whole invocation, every
requirement the unit's contribution declares is in the unit's set afterwards
(even when the contribution raises), and with no active context an
`add_dependency` call stores its requirement under the reserved `"global"`
key and changes no other. -/
theorem plugin_attribution (plugin : PluginUnit) (reg : PluginRegistry) (name : String)
    (hname : name ≠ "") :
    (_apply_plugin plugin reg name).1.current_plugin = none ∧
    (∀ k, k ≠ name →
      (_apply_plugin plugin reg name).1.deps k = reg.deps k) ∧
    (∀ (reg' : PluginRegistry) (requirement : String), reg'.current_plugin = some name →
      (reg'.add_dependency requirement).deps name =
        some (addToSet ((reg'.deps name).getD []) requirement)) ∧
    (∀ acts, (runActions { reg with current_plugin := some name } acts).current_plugin =
      some name) ∧
    (∀ (body : PluginBody) (requirement : String),
      (plugin.register = some body ∨
        (plugin.register = none ∧ plugin.callBody = some body)) →
      RegAction.addDep requirement ∈ body.actions →
      requirement ∈ ((_apply_plugin plugin reg name).1.deps name).getD []) ∧
    (∀ requirement, reg.current_plugin = none →
      (reg.add_dependency requirement).deps "global" =
        some (addToSet ((reg.deps "global").getD []) requirement) ∧
      ∀ k, k ≠ "global" → (reg.add_dependency requirement).deps k = reg.deps k) := by
  refine ⟨rfl, fun k hk => ?_, fun reg' requirement hcur => ?_, fun acts => ?_,
    fun body requirement hshape hmem => ?_, fun requirement hcur => ?_⟩
  · have hbody : ∀ body : PluginBody,
        (runBody { reg with current_plugin := some name } name body).1.deps k = reg.deps k := by
      intro body
      exact (runActions_frame body.actions { reg with current_plugin := some name }
        name rfl hname).2 k hk
    unfold _apply_plugin
    match plugin with
    | ⟨some body, _⟩ => exact hbody body
    | ⟨none, some body⟩ => exact hbody body
    | ⟨none, none⟩ => rfl
  · exact add_dependency_active reg' name requirement hcur hname
  · exact (runActions_frame acts { reg with current_plugin := some name } name rfl hname).1
  · obtain ⟨r, c⟩ := plugin
    rcases hshape with hr | ⟨hr, hc⟩
    · replace hr : r = some body := hr
      subst hr
      show requirement ∈
        ((runActions { reg with current_plugin := some name } body.actions).deps name).getD []
      exact runActions_mem_addDep body.actions _ name requirement rfl hname hmem
    · replace hr : r = none := hr
      replace hc : c = some body := hc
      subst hr
      subst hc
      show requirement ∈
        ((runActions { reg with current_plugin := some name } body.actions).deps name).getD []
      exact runActions_mem_addDep body.actions _ name requirement rfl hname hmem
  · refine ⟨add_dependency_global reg requirement hcur, fun k hk => ?_⟩
    have hframe := (add_dependency_frame reg requirement).2.2 k
    rw [hcur] at hframe
    exact hframe hk

/-- Witness for C4: a unit that adds dependency `"x"` and then raises,
applied as `"a"` to an empty registry — the marker ends cleared, key `"b"`
is untouched, `"x"` is stored under key `"a"` despite the raise, and a
global `add_dependency` stores under `"global"`. -/
theorem plugin_attribution_witness :
    (_apply_plugin ⟨some ⟨[.addDep "x"], true⟩, none⟩ ⟨[], [], none⟩ "a").1.current_plugin
      = none ∧
    (_apply_plugin ⟨some ⟨[.addDep "x"], true⟩, none⟩ ⟨[], [], none⟩ "a").1.deps "b" =
      PluginRegistry.deps ⟨[], [], none⟩ "b" ∧
    "x" ∈ ((_apply_plugin ⟨some ⟨[.addDep "x"], true⟩, none⟩
      ⟨[], [], none⟩ "a").1.deps "a").getD [] ∧
    (PluginRegistry.add_dependency ⟨[], [], none⟩ "y").deps "global" =
      some (addToSet ((PluginRegistry.deps ⟨[], [], none⟩ "global").getD []) "y") := by
  have h := plugin_attribution ⟨some ⟨[.addDep "x"], true⟩, none⟩ ⟨[], [], none⟩ "a" (by decide)
  exact ⟨h.1, h.2.1 "b" (by decide),
    h.2.2.2.2.1 ⟨[.addDep "x"], true⟩ "x" (Or.inl rfl) (by decide),
    (h.2.2.2.2.2 "y" rfl).1⟩

/-- C9: when a unit both exposes a callable `register` attribute and is
itself callable, only `register(registry)` runs — the result is the same as
for a unit with no callable shape at all, so the bare call is never made. -/
theorem register_takes_precedence (rb cb : PluginBody) (reg : PluginRegistry) (name : String) :
    _apply_plugin ⟨some rb, some cb⟩ reg name = _apply_plugin ⟨some rb, none⟩ reg name := rfl

/-- A unit exposing neither shape: no callable `register`, not callable. -/
def contractlessUnit : PluginUnit := ⟨none, none⟩

/-- A valid unit whose `register` adds the dependency `"good-dep"`. -/
def goodUnit : PluginUnit := ⟨some ⟨[.addDep "good-dep"], false⟩, none⟩

/-- C3 counterexample: in a directory holding an invalid unit and then a
valid one, discovery raises the contract `TypeError` and returns no registry
at all, so the valid unit's contribution appears in no returned registry —
even though the valid unit alone would have produced one. -/
theorem discovery_abort_counterexample :
    discover_plugins [] (some [("bad", contractlessUnit), ("good", goodUnit)]) =
      .error (.typeError "Plugin must be callable or expose a register() function") ∧
    discover_plugins [] (some [("good", goodUnit)]) =
      .ok ⟨[("good", ["good-dep"])], [], none⟩ := by
  exact ⟨rfl, rfl⟩

/-- If the processed unit sequence contains a unit with neither shape, the
sequential application ends in an error. -/
theorem applyAll_contract_error (units : List (String × PluginUnit)) :
    ∀ (reg : PluginRegistry) (name : String),
      (name, contractlessUnit) ∈ units →
      ∃ e, applyAll reg units = .error e := by
  induction units with
  | nil => intro reg name h; cases h
  | cons hd rest ih =>
    intro reg name h
    obtain ⟨n₀, u₀⟩ := hd
    rcases List.mem_cons.mp h with heq | hmem
    · injection heq with h1 h2
      subst h1
      rw [← h2]
      exact ⟨.typeError "Plugin must be callable or expose a register() function", rfl⟩
    · rcases happ : _apply_plugin u₀ reg n₀ with ⟨reg', err⟩
      cases err with
      | none =>
        obtain ⟨e, he⟩ := ih reg' name hmem
        refine ⟨e, ?_⟩
        simp only [applyAll, happ]
        exact he
      | some e =>
        refine ⟨e, ?_⟩
        simp only [applyAll, happ]

/-- C3 amended: a discovered unit that neither exposes a callable `register`
attribute nor is itself callable raises `TypeError` (there is no
`PluginContractError` class and no handler), and the exception propagates
out of `discover_plugins`: the whole discovery pass aborts with an error, so
no registry is returned and no other unit's contributions are reported. -/
theorem contract_violation_aborts_discovery (eps files : List (String × PluginUnit))
    (name : String)
    (hmem : (name, contractlessUnit) ∈
      eps ++ files.filter (fun f => !underscoreFirst f.1)) :
    ∃ e, discover_plugins eps (some files) = .error e := by
  unfold discover_plugins
  exact applyAll_contract_error _ _ name hmem

/-- Witness for C3's amended statement at the counterexample's input. -/
theorem contract_violation_aborts_discovery_witness :
    ∃ e, discover_plugins [] (some [("bad", contractlessUnit), ("good", goodUnit)]) =
      .error e := by
  exact contract_violation_aborts_discovery [] [("bad", contractlessUnit), ("good", goodUnit)]
    "bad" (by decide)

end WindowsAI

namespace WindowsAI

/-!
## Environment provisioning (`installer/env.py`)

Filesystem effects become explicit state: the set of existing environment
directories and the parsed content of `envs.json` (a missing or corrupt file
reads as the empty mapping, so the state keeps the mapping itself).
Subprocess exits are supplied as a function from the command line to its
exit status; `check_call` raises `CalledProcessError` on a nonzero status.
-/

/-- The provisioner's observable state. -/
structure FS where
  paths : List String
  record : List (String × String)
deriving DecidableEq, Repr

/-- `CONFIG_DIR = Path.home() / ".windows_ai"`. -/
def CONFIG_DIR : String := "~/.windows_ai"

/-- `BASE_DIR = CONFIG_DIR / "venvs"`. -/
def BASE_DIR : String := CONFIG_DIR ++ "/venvs"

/-- Record lookup in the parsed `envs.json` mapping. -/
def lookupStr : List (String × String) → String → Option String
  | [], _ => none
  | (k', v) :: rest, k => if k' = k then some v else lookupStr rest k

/-- `_record_env_path`: read the record file (missing or corrupt content is
treated as the empty mapping — the state already holds the parsed mapping),
set `data[name] = str(path)`, write the whole mapping back. -/
def _record_env_path (fs : FS) (name path : String) : FS :=
  { fs with record := setAssoc fs.record name path }

/-- `create_env`: the environment lives at `BASE_DIR/<name>`; the backend is
the explicit parameter if non-empty (Python `or` treats `""` as falsy), else
`"conda"` or `"venv"` by `_use_conda()`; creation runs only when the path
does not yet exist (`conda create` as a subprocess that can fail, the venv
builder otherwise); `_record_env_path` runs on every successful call.  The
returned `Bool` instruments whether the creation branch ran. -/
def create_env (name : String) (backend : Option String) (useConda : Bool)
    (exitCode : List String → Nat) (fs : FS) :
    Except PyError (String × FS × Bool) :=
  let env_path := BASE_DIR ++ "/" ++ name
  let chosen :=
    match backend with
    | none => if useConda then "conda" else "venv"
    | some b => if b = "" then (if useConda then "conda" else "venv") else b
  if env_path ∈ fs.paths then
    .ok (env_path, _record_env_path fs name env_path, false)
  else if chosen = "conda" then
    let cmd := ["conda", "create", "-y", "-p", env_path, "python"]
    if exitCode cmd ≠ 0 then
      .error (.calledProcessError cmd (exitCode cmd))
    else
      .ok (env_path,
           _record_env_path { fs with paths := fs.paths ++ [env_path] } name env_path,
           true)
  else
    .ok (env_path,
         _record_env_path { fs with paths := fs.paths ++ [env_path] } name env_path,
         true)

/-- `python_executable`: `Scripts` on Windows (`os.name == "nt"`), `bin`
elsewhere. -/
def python_executable (env_path : String) (osIsNt : Bool) : String :=
  env_path ++ "/" ++ (if osIsNt then "Scripts" else "bin") ++ "/python"

/-- `install_packages`: an empty list returns before any subprocess; else
`check_call([python, "-m", "pip", "install", *packages])` once, raising
`CalledProcessError` on a nonzero exit.  The returned count instruments how
many subprocess invocations were made. -/
def install_packages (env_path : String) (packages : List String) (osIsNt : Bool)
    (exitCode : List String → Nat) : Except PyError Unit × Nat :=
  if packages.isEmpty then (.ok (), 0)
  else
    let python := python_executable env_path osIsNt
    let cmd := [python, "-m", "pip", "install"] ++ packages
    if exitCode cmd = 0 then (.ok (), 1)
    else (.error (.calledProcessError cmd (exitCode cmd)), 1)

/-- Updating a record key makes it readable back. -/
theorem lookupStr_setAssoc_self (l : List (String × String)) (k v : String) :
    lookupStr (setAssoc l k v) k = some v := by
  induction l with
  | nil => simp [setAssoc, lookupStr]
  | cons e rest ih =>
    obtain ⟨k', v'⟩ := e
    by_cases hk : k' = k
    · subst hk; simp [setAssoc, lookupStr]
    · simp [setAssoc, lookupStr, hk, ih]

/-- Anatomy of every successful `create_env` call: the returned location is
`BASE_DIR/<name>`, it exists afterwards, the record now maps the name to it,
and a call whose location already existed is a cache hit (state changes only
by re-recording; the creation flag is off). -/
theorem create_env_ok (name : String) (backend : Option String) (useConda : Bool)
    (exitCode : List String → Nat) (fs : FS) (p : String) (fs' : FS) (c : Bool)
    (h : create_env name backend useConda exitCode fs = .ok (p, fs', c)) :
    p = BASE_DIR ++ "/" ++ name ∧
    p ∈ fs'.paths ∧
    fs'.record = setAssoc fs.record name p ∧
    (p ∈ fs.paths → fs' = _record_env_path fs name p ∧ c = false) := by
  simp only [create_env] at h
  split at h
  · next hmem =>
    simp only [Except.ok.injEq, Prod.mk.injEq] at h
    obtain ⟨rfl, rfl, rfl⟩ := h
    exact ⟨rfl, hmem, rfl, fun _ => ⟨rfl, rfl⟩⟩
  · next hmem =>
    repeat' split at h
    all_goals
      first
      | (simp only [Except.ok.injEq, Prod.mk.injEq] at h
         obtain ⟨rfl, rfl, rfl⟩ := h
         refine ⟨rfl, ?_, rfl, fun hcontra => absurd hcontra hmem⟩
         simp [_record_env_path])
      | simp at h

end WindowsAI

namespace WindowsAI

/-- C7: two sequential successful `create_env` calls with the same name
return the same location, the second performs no creation (cache hit because
the location exists after the first call), and both calls — the cache hit
included — update the persisted name→location record. -/
theorem create_env_idempotent (name : String) (useConda : Bool)
    (exitCode : List String → Nat) (fs : FS)
    (p₁ p₂ : String) (fs₁ fs₂ : FS) (c₁ c₂ : Bool)
    (h₁ : create_env name none useConda exitCode fs = .ok (p₁, fs₁, c₁))
    (h₂ : create_env name none useConda exitCode fs₁ = .ok (p₂, fs₂, c₂)) :
    p₁ = p₂ ∧ c₂ = false ∧
    lookupStr fs₁.record name = some p₁ ∧
    lookupStr fs₂.record name = some p₂ := by
  obtain ⟨hp₁, hmem₁, hrec₁, _⟩ := create_env_ok name none useConda exitCode fs p₁ fs₁ c₁ h₁
  obtain ⟨hp₂, _, hrec₂, hhit⟩ := create_env_ok name none useConda exitCode fs₁ p₂ fs₂ c₂ h₂
  have hpp : p₁ = p₂ := hp₁.trans hp₂.symm
  have hcache := hhit (hpp ▸ hmem₁)
  refine ⟨hpp, hcache.2, ?_, ?_⟩
  · rw [hrec₁]; exact lookupStr_setAssoc_self fs.record name p₁
  · rw [hrec₂]; exact lookupStr_setAssoc_self fs₁.record name p₂

/-- Witness for C7: creating `"x"` twice on an empty state with the venv
backend. -/
theorem create_env_idempotent_witness :
    "~/.windows_ai/venvs/x" = "~/.windows_ai/venvs/x" ∧ false = false ∧
    lookupStr (FS.record ⟨["~/.windows_ai/venvs/x"], [("x", "~/.windows_ai/venvs/x")]⟩) "x" =
      some "~/.windows_ai/venvs/x" ∧
    lookupStr (FS.record ⟨["~/.windows_ai/venvs/x"], [("x", "~/.windows_ai/venvs/x")]⟩) "x" =
      some "~/.windows_ai/venvs/x" := by
  exact create_env_idempotent "x" false (fun _ => 0) ⟨[], []⟩
    "~/.windows_ai/venvs/x" "~/.windows_ai/venvs/x"
    ⟨["~/.windows_ai/venvs/x"], [("x", "~/.windows_ai/venvs/x")]⟩
    ⟨["~/.windows_ai/venvs/x"], [("x", "~/.windows_ai/venvs/x")]⟩
    true false rfl rfl

/-- C8: `install_packages` on an empty list succeeds without any subprocess
invocation; on a non-empty list it invokes `pip install` exactly once (never
retried), and a nonzero exit surfaces as a `CalledProcessError` carrying the
failed command — whose interpreter path identifies the target environment —
and the exit status. -/
theorem install_packages_contract (env_path : String) (packages : List String)
    (osIsNt : Bool) (exitCode : List String → Nat) :
    (packages = [] → install_packages env_path packages osIsNt exitCode = (.ok (), 0)) ∧
    (install_packages env_path packages osIsNt exitCode).2 ≤ 1 ∧
    (packages ≠ [] →
      exitCode ([python_executable env_path osIsNt, "-m", "pip", "install"] ++ packages) ≠ 0 →
      install_packages env_path packages osIsNt exitCode =
        (.error (.calledProcessError
            ([python_executable env_path osIsNt, "-m", "pip", "install"] ++ packages)
            (exitCode ([python_executable env_path osIsNt, "-m", "pip", "install"] ++ packages))),
         1)) := by
  cases packages with
  | nil =>
    refine ⟨fun _ => rfl, ?_, fun hne _ => absurd rfl hne⟩
    simp [install_packages]
  | cons p ps =>
    refine ⟨(fun hcon => absurd hcon (List.cons_ne_nil p ps)), ?_, fun _ hexit => ?_⟩
    · simp only [install_packages]
      split
      · next hE => simp at hE
      · split <;> simp
    · simp only [install_packages]
      split
      · next hE => simp at hE
      · rfl

/-- Witness for C8: a one-package install whose subprocess exits 1, and the
empty-list no-op. -/
theorem install_packages_contract_witness :
    install_packages "~/.windows_ai/venvs/a" ["demo"] false (fun _ => 1) =
      (.error (.calledProcessError
        ["~/.windows_ai/venvs/a/bin/python", "-m", "pip", "install", "demo"] 1), 1) ∧
    install_packages "~/.windows_ai/venvs/a" [] false (fun _ => 1) = (.ok (), 0) := by
  constructor
  · have h := (install_packages_contract "~/.windows_ai/venvs/a" ["demo"] false
      (fun _ => 1)).2.2 (by decide) (by decide)
    exact h.trans rfl
  · exact (install_packages_contract "~/.windows_ai/venvs/a" [] false (fun _ => 1)).1 rfl

end WindowsAI

namespace WindowsAI

/-!
## Orchestration (`setup_all` in `installer/env_setup.py`)

`setup_all` discovers plugins, then for each plugin in sorted-name order
resolves its dependency strings, ensures its environment and installs the
resolved packages.  The loop body has no exception handler, so any
`CalledProcessError` propagates and aborts the whole call.  Parsing of the
stored requirement strings (`packaging.requirements.Requirement`) is an
external collaborator supplied as `parseReq`.
-/

/-- One `report[name]` entry of `setup_all`. -/
structure ReportEntry where
  env_path : String
  packages : List String
  conflicts : List (String × List String)
deriving DecidableEq, Repr

/-- Insertion step of sorting the registry items by plugin name
(`sorted(registry.dependencies.items())`; keys are unique, so the tuple
order is the key order). -/
def insertByKey (x : String × List String) :
    List (String × List String) → List (String × List String)
  | [] => [x]
  | y :: ys => if strLe x.1 y.1 then x :: y :: ys else y :: insertByKey x ys

/-- `sorted(registry.dependencies.items())`. -/
def sortByKey : List (String × List String) → List (String × List String)
  | [] => []
  | x :: xs => insertByKey x (sortByKey xs)

/-- The `for name, deps in sorted(...)` loop of `setup_all`: resolve, ensure
the environment, install, record the report entry; any raised
`CalledProcessError` propagates immediately — nothing catches it. -/
def provisionAll (auto_resolve useConda osIsNt : Bool)
    (exitCode : List String → Nat) (parseReq : String → Req) :
    FS → List (String × List String) → Except PyError (List (String × ReportEntry) × FS)
  | fs, [] => .ok ([], fs)
  | fs, (name, deps) :: rest =>
    let rc := resolve_conflicts (deps.map parseReq) auto_resolve
    match create_env name none useConda exitCode fs with
    | .error e => .error e
    | .ok (env_path, fs₁, _) =>
      match (install_packages env_path rc.1 osIsNt exitCode).1 with
      | .error e => .error e
      | .ok _ =>
        match provisionAll auto_resolve useConda osIsNt exitCode parseReq fs₁ rest with
        | .error e => .error e
        | .ok (report, fs₂) => .ok ((name, ⟨env_path, rc.1, rc.2⟩) :: report, fs₂)

/-- `setup_all`: discovery, then the provisioning loop over the sorted
registry items. -/
def setup_all (eps : List (String × PluginUnit))
    (search_path : Option (List (String × PluginUnit)))
    (auto_resolve useConda osIsNt : Bool)
    (exitCode : List String → Nat) (parseReq : String → Req) (fs : FS) :
    Except PyError (List (String × ReportEntry) × FS) :=
  match discover_plugins eps search_path with
  | .error e => .error e
  | .ok registry =>
    provisionAll auto_resolve useConda osIsNt exitCode parseReq fs
      (sortByKey registry.dependencies)

/-- A unit whose `register` requests `"demo-one"`. -/
def pluginA : PluginUnit := ⟨some ⟨[.addDep "demo-one"], false⟩, none⟩

/-- A unit whose `register` requests `"demo-two"`. -/
def pluginB : PluginUnit := ⟨some ⟨[.addDep "demo-two"], false⟩, none⟩

/-- A subprocess world where `pip` fails inside environment `a` (exit 1) and
every other command succeeds. -/
def failInEnvA : List String → Nat := fun cmd =>
  if cmd.head? = some "~/.windows_ai/venvs/a/bin/python" then 1 else 0

/-- `Requirement(s)` for a bare package-name string. -/
def parseNameOnly : String → Req := fun s => ⟨s, [], [], none⟩

/-- C2 counterexample: with plugins `a` and `b` and a pip failure in `a`'s
environment, `setup_all` raises the `CalledProcessError` instead of
returning a report — so plugin `b`, later in sorted order, is neither
provisioned nor reported, and not even `a` gets a result entry. -/
theorem setup_all_abort_counterexample :
    setup_all [] (some [("a", pluginA), ("b", pluginB)]) true false false
      failInEnvA parseNameOnly ⟨[], []⟩ =
      .error (.calledProcessError
        ["~/.windows_ai/venvs/a/bin/python", "-m", "pip", "install", "demo-one"] 1) := rfl

/-- The report of a successful provisioning run lists exactly the processed
plugin names, in order. -/
theorem provisionAll_names (auto_resolve useConda osIsNt : Bool)
    (exitCode : List String → Nat) (parseReq : String → Req) :
    ∀ (items : List (String × List String)) (fs : FS)
      (report : List (String × ReportEntry)) (fs' : FS),
      provisionAll auto_resolve useConda osIsNt exitCode parseReq fs items =
        .ok (report, fs') →
      report.map Prod.fst = items.map Prod.fst := by
  intro items
  induction items with
  | nil =>
    intro fs report fs' h
    simp only [provisionAll, Except.ok.injEq, Prod.mk.injEq] at h
    obtain ⟨rfl, rfl⟩ := h
    rfl
  | cons hd rest ih =>
    intro fs report fs' h
    obtain ⟨name, deps⟩ := hd
    simp only [provisionAll] at h
    split at h
    · simp at h
    · split at h
      · simp at h
      · split at h
        · simp at h
        · simp only [Except.ok.injEq, Prod.mk.injEq] at h
          obtain ⟨rfl, rfl⟩ := h
          next heq =>
          simp only [List.map_cons, List.cons.injEq, true_and]
          exact ih _ _ _ heq

/-- C2 amended: `setup_all` reports one entry per discovered plugin (sorted
by name) only when every installation succeeds — whenever it returns a
report at all, the report covers exactly the sorted plugin names; an
installation failure instead propagates out of `setup_all` (see the
counterexample), aborting the remaining plugins and producing no report. -/
theorem setup_all_report_per_plugin (eps : List (String × PluginUnit))
    (search_path : Option (List (String × PluginUnit)))
    (auto_resolve useConda osIsNt : Bool) (exitCode : List String → Nat)
    (parseReq : String → Req) (fs : FS) (registry : PluginRegistry)
    (report : List (String × ReportEntry)) (fs' : FS)
    (hdisc : discover_plugins eps search_path = .ok registry)
    (hok : setup_all eps search_path auto_resolve useConda osIsNt exitCode parseReq fs =
      .ok (report, fs')) :
    report.map Prod.fst = (sortByKey registry.dependencies).map Prod.fst := by
  unfold setup_all at hok
  rw [hdisc] at hok
  exact provisionAll_names auto_resolve useConda osIsNt exitCode parseReq _ fs report fs' hok

/-- Witness for C2's amended statement: an all-success run over plugins `a`
and `b` reports exactly the two sorted plugin names. -/
theorem setup_all_report_per_plugin_witness :
    ([("a", (⟨"~/.windows_ai/venvs/a", ["demo-one"], []⟩ : ReportEntry)),
      ("b", (⟨"~/.windows_ai/venvs/b", ["demo-two"], []⟩ : ReportEntry))].map Prod.fst) =
      (sortByKey [("a", ["demo-one"]), ("b", ["demo-two"])]).map Prod.fst := by
  exact setup_all_report_per_plugin [] (some [("a", pluginA), ("b", pluginB)])
    true false false (fun _ => 0) parseNameOnly ⟨[], []⟩
    ⟨[("a", ["demo-one"]), ("b", ["demo-two"])], [], none⟩
    [("a", ⟨"~/.windows_ai/venvs/a", ["demo-one"], []⟩),
     ("b", ⟨"~/.windows_ai/venvs/b", ["demo-two"], []⟩)]
    ⟨["~/.windows_ai/venvs/a", "~/.windows_ai/venvs/b"],
     [("a", "~/.windows_ai/venvs/a"), ("b", "~/.windows_ai/venvs/b")]⟩
    rfl rfl

end WindowsAI
